import Mathlib

/-!
Verification of the model-to-mesh conversion core of `mc_json_stuff`
(`src/lib.rs`).  The development shallowly embeds the data model, the
texture-atlas build loop, face UV resolution, cuboid face emission, the
exact-match vertex deduplicator and mesh finalisation, and proves the
specified properties about them.

Modelling conventions:
* `f64` coordinate values are embedded as elements of an exact linearly
  ordered field (instantiated at `ℚ` for concrete evaluation); the
  deduplicator, which the source keys on raw `f64` bit patterns, is
  additionally stated over `Nat` bit patterns.
* The external crates (`etagere`'s rectangle allocator, `image`'s file
  loading, `cgmath`'s trigonometry) are abstracted as explicit oracle
  parameters; everything written in the repository itself is embedded
  directly.
* `anyhow` error strings are represented by the inductive `ConvError`.
-/

set_option maxRecDepth 4096

deriving instance DecidableEq for Except

/-- RGBA colour (the rendering crate's `Srgba`).  Channel values are kept
exact; the byte quantisation applied inside the external crate's
`Srgba::from([f32; 4])` is not modelled, as no claim concerns it. -/
structure Srgba where
  r : ℚ
  g : ℚ
  b : ℚ
  a : ℚ
deriving DecidableEq, Repr

/-- Rotation axis enum `McModelRotationAxis` (source lines 13–17). -/
inductive McModelRotationAxis
  | x
  | y
  | z
deriving DecidableEq, Repr

/-- Face direction enum `McModelDirection` (source lines 21–28). -/
inductive McModelDirection
  | north
  | east
  | south
  | west
  | up
  | down
deriving DecidableEq, Repr

/-- Shading table `get_shading_mult` (source lines 42–53): the fixed per-direction shading
multiplier.  The `f32` literals `0.8`, `0.6`, `1.0`, `0.5` are embedded as the
exact rationals they denote. -/
def McModelDirection.get_shading_mult : McModelDirection → ℚ
  | .north => 4 / 5
  | .east => 3 / 5
  | .south => 4 / 5
  | .west => 3 / 5
  | .up => 1
  | .down => 1 / 2

/-- Shading colour `get_shading_srgba` (source lines 55–58): the shading multiplier as a flat
grey colour with full opacity. -/
def McModelDirection.get_shading_srgba (d : McModelDirection) : Srgba :=
  let shading := d.get_shading_mult
  ⟨shading, shading, shading, 1⟩

/-- The deduplicator key `Vec3S` (source lines 268–287): position, UV and
colour of one emitted vertex.  The source decides key identity on the five
`f64` coordinates plus the colour; its hashing is on the raw 64-bit patterns
(`to_bits`).  The coordinate representation is a parameter: `Nat` raw bit
patterns for the bit-level deduplication statements, an exact scalar field for
the geometric pipeline. -/
structure Vec3S (κ : Type) where
  x : κ
  y : κ
  z : κ
  u : κ
  v : κ
  color : Srgba
deriving DecidableEq, Repr

/-- Index of the first entry equal to `p`, as returned by the source's
`IndexMap::get_full` probe. -/
def idxOfKey {κ : Type} [DecidableEq κ] (p : κ) : List κ → Option Nat
  | [] => none
  | q :: rest => if q = p then some 0 else (idxOfKey p rest).map (· + 1)

/-- Accumulated assembler state: `datas` is the insertion-ordered key set of
the source's `IndexMap<Vec3S, ()>`, `indices` the emitted index stream. -/
structure MeshAcc (κ : Type) where
  datas : List κ
  indices : List Nat
deriving DecidableEq, Repr

/-- Deduplicating push `push_pos` (source lines 291–299): push one vertex through the
deduplicator.  If an equal key exists, its index is appended to `indices` and
`datas` is unchanged; otherwise the key is appended and its fresh index (the
previous size) is emitted.  Indices are kept as `Nat`; the source stores them
as `u32`, which is the identity for every vertex count that finalisation
accepts (below `2^32`). -/
def push_pos {κ : Type} [DecidableEq κ] (acc : MeshAcc κ) (p : κ) : MeshAcc κ :=
  match idxOfKey p acc.datas with
  | some idx => { acc with indices := acc.indices ++ [idx] }
  | none => { datas := acc.datas ++ [p], indices := acc.indices ++ [acc.datas.length] }

/-- Fold `push_pos` over a sequence of emitted vertices. -/
def push_all {κ : Type} [DecidableEq κ] (acc : MeshAcc κ) : List κ → MeshAcc κ
  | [] => acc
  | p :: rest => push_all (push_pos acc p) rest

/-- First-seen filter, continuing from an already-seen list. -/
def firstSeenFrom {κ : Type} [DecidableEq κ] (seen : List κ) : List κ → List κ
  | [] => seen
  | p :: rest => firstSeenFrom (if p ∈ seen then seen else seen ++ [p]) rest

/-- The unique elements of a list in first-occurrence order. -/
def firstSeen {κ : Type} [DecidableEq κ] (l : List κ) : List κ :=
  firstSeenFrom [] l

theorem idxOfKey_eq_none_iff {κ : Type} [DecidableEq κ] (p : κ) (l : List κ) :
    idxOfKey p l = none ↔ p ∉ l := by
  induction l with
  | nil => simp [idxOfKey]
  | cons q rest ih =>
    by_cases hq : q = p
    · simp [idxOfKey, hq]
    · simp only [idxOfKey, if_neg hq, Option.map_eq_none', ih, List.mem_cons, not_or]
      constructor
      · intro h
        exact ⟨fun hpq => hq hpq.symm, h⟩
      · intro h
        exact h.2

theorem idxOfKey_isSome_of_mem {κ : Type} [DecidableEq κ] {p : κ} {l : List κ}
    (h : p ∈ l) : ∃ i, idxOfKey p l = some i := by
  cases hi : idxOfKey p l with
  | none => exact absurd h ((idxOfKey_eq_none_iff p l).mp hi)
  | some i => exact ⟨i, rfl⟩

theorem idxOfKey_spec {κ : Type} [DecidableEq κ] {p : κ} {l : List κ} {i : Nat}
    (h : idxOfKey p l = some i) : i < l.length ∧ l.get? i = some p := by
  induction l generalizing i with
  | nil => simp [idxOfKey] at h
  | cons q rest ih =>
    by_cases hq : q = p
    · simp only [idxOfKey, if_pos hq, Option.some.injEq] at h
      subst h
      refine ⟨Nat.succ_pos _, ?_⟩
      simp [List.get?, hq]
    · simp only [idxOfKey, if_neg hq] at h
      cases hj : idxOfKey p rest with
      | none => rw [hj] at h; simp at h
      | some j =>
        rw [hj] at h
        simp only [Option.map_some', Option.some.injEq] at h
        subst h
        obtain ⟨hlt, hget⟩ := ih hj
        constructor
        · simpa [Nat.succ_lt_succ_iff] using hlt
        · simpa using hget

theorem push_all_datas {κ : Type} [DecidableEq κ] (ps : List κ) (acc : MeshAcc κ) :
    (push_all acc ps).datas = firstSeenFrom acc.datas ps := by
  induction ps generalizing acc with
  | nil => rfl
  | cons p rest ih =>
    have hstep : (push_pos acc p).datas =
        if p ∈ acc.datas then acc.datas else acc.datas ++ [p] := by
      by_cases hmem : p ∈ acc.datas
      · obtain ⟨i, hi⟩ := idxOfKey_isSome_of_mem hmem
        simp [push_pos, hi, hmem]
      · have hnone : idxOfKey p acc.datas = none := (idxOfKey_eq_none_iff p acc.datas).mpr hmem
        simp [push_pos, hnone, hmem]
    show (push_all (push_pos acc p) rest).datas = _
    rw [ih, hstep]
    rfl

theorem mem_firstSeenFrom {κ : Type} [DecidableEq κ] (p : κ) (ps : List κ) (seen : List κ) :
    p ∈ firstSeenFrom seen ps ↔ p ∈ seen ∨ p ∈ ps := by
  induction ps generalizing seen with
  | nil => simp [firstSeenFrom]
  | cons q rest ih =>
    by_cases hq : q ∈ seen
    · simp only [firstSeenFrom, if_pos hq, ih, List.mem_cons]
      constructor
      · rintro (h | h)
        · exact Or.inl h
        · exact Or.inr (Or.inr h)
      · rintro (h | h | h)
        · exact Or.inl h
        · exact Or.inl (h ▸ hq)
        · exact Or.inr h
    · simp only [firstSeenFrom, if_neg hq, ih, List.mem_append, List.mem_singleton,
        List.mem_cons]
      tauto

theorem mem_push_all_datas {κ : Type} [DecidableEq κ] (p : κ) (ps : List κ) :
    p ∈ (push_all ⟨[], []⟩ ps).datas ↔ p ∈ ps := by
  rw [push_all_datas]
  simpa using mem_firstSeenFrom p ps []

/-- C1: the vertex deduplicator's push is exact-match.  Coordinates are the
raw `f64` bit patterns (`Nat`), so "bit-for-bit identical" is key equality and
differing in any single bit of any coordinate makes the keys distinct.  After
any sequence of pushes: pushing a key bit-identical to an earlier push appends
the earlier entry's index and adds no entry; pushing a key that differs from
every earlier push appends a fresh entry at the end with index equal to the
previous entry count; the accumulated entry list (which finalisation flattens
into the mesh buffers) is the pushed keys in first-seen insertion order. -/
theorem c1_dedup_exact_match (ps : List (Vec3S Nat)) (p : Vec3S Nat) :
    (p ∈ ps →
      ∃ i, idxOfKey p (push_all ⟨[], []⟩ ps).datas = some i ∧
        (push_all ⟨[], []⟩ ps).datas.get? i = some p ∧
        push_pos (push_all ⟨[], []⟩ ps) p =
          ⟨(push_all ⟨[], []⟩ ps).datas, (push_all ⟨[], []⟩ ps).indices ++ [i]⟩) ∧
    (p ∉ ps →
      push_pos (push_all ⟨[], []⟩ ps) p =
        ⟨(push_all ⟨[], []⟩ ps).datas ++ [p],
          (push_all ⟨[], []⟩ ps).indices ++ [(push_all ⟨[], []⟩ ps).datas.length]⟩) ∧
    (push_all ⟨[], []⟩ ps).datas = firstSeen ps := by
  refine ⟨?_, ?_, ?_⟩
  · intro hmem
    have hmem' : p ∈ (push_all ⟨[], []⟩ ps).datas := (mem_push_all_datas p ps).mpr hmem
    obtain ⟨i, hi⟩ := idxOfKey_isSome_of_mem hmem'
    obtain ⟨_, hget⟩ := idxOfKey_spec hi
    exact ⟨i, hi, hget, by simp [push_pos, hi]⟩
  · intro hmem
    have hmem' : p ∉ (push_all ⟨[], []⟩ ps).datas := fun h =>
      hmem ((mem_push_all_datas p ps).mp h)
    have hnone : idxOfKey p (push_all ⟨[], []⟩ ps).datas = none :=
      (idxOfKey_eq_none_iff p _).mpr hmem'
    simp [push_pos, hnone]
  · exact push_all_datas ps ⟨[], []⟩

/-- Concrete instantiation of `c1_dedup_exact_match`: three pushes where the
third repeats the first bit-for-bit, then a probe differing from all of them
in a single bit of `x`. -/
theorem c1_dedup_exact_match_witness :
    let k0 : Vec3S Nat := ⟨1, 2, 3, 4, 5, ⟨1, 1, 1, 1⟩⟩
    let k1 : Vec3S Nat := ⟨1, 2, 3, 4, 6, ⟨1, 1, 1, 1⟩⟩
    let k2 : Vec3S Nat := ⟨0, 2, 3, 4, 5, ⟨1, 1, 1, 1⟩⟩
    (k0 ∈ [k0, k1, k0] ∧
      ∃ i, idxOfKey k0 (push_all ⟨[], []⟩ [k0, k1, k0]).datas = some i ∧
        (push_all ⟨[], []⟩ [k0, k1, k0]).datas.get? i = some k0 ∧
        push_pos (push_all ⟨[], []⟩ [k0, k1, k0]) k0 =
          ⟨(push_all ⟨[], []⟩ [k0, k1, k0]).datas,
            (push_all ⟨[], []⟩ [k0, k1, k0]).indices ++ [i]⟩) ∧
    (k2 ∉ [k0, k1, k0] ∧
      push_pos (push_all ⟨[], []⟩ [k0, k1, k0]) k2 =
        ⟨(push_all ⟨[], []⟩ [k0, k1, k0]).datas ++ [k2],
          (push_all ⟨[], []⟩ [k0, k1, k0]).indices ++
            [(push_all ⟨[], []⟩ [k0, k1, k0]).datas.length]⟩) ∧
    (push_all ⟨[], []⟩ [k0, k1, k0]).datas = firstSeen [k0, k1, k0] := by
  intro k0 k1 k2
  refine ⟨⟨by decide, (c1_dedup_exact_match [k0, k1, k0] k0).1 (by decide)⟩,
    ⟨by decide, (c1_dedup_exact_match [k0, k1, k0] k2).2.1 (by decide)⟩,
    (c1_dedup_exact_match [k0, k1, k0] k0).2.2⟩

/-- Error taxonomy of the conversion (the source reports these through
`anyhow` strings; the constructors follow the specification's names).
`unsupportedRotation` carries the offending face rotation value. -/
inductive ConvError
  | malformedReference
  | unsupportedRotation (rotation : ℤ)
  | atlasExhausted
  | tooManyVertices
deriving DecidableEq, Repr

/-- An `etagere` allocation rectangle on the 2048×2048 atlas canvas
(`i32` corners embedded as `ℤ`); `get_uv` reads only the `min` corner. -/
structure Rect where
  minX : ℤ
  minY : ℤ
  maxX : ℤ
  maxY : ℤ
deriving DecidableEq, Repr

/-- Face record `McModelFace` (source lines 104–111): declared UV rectangle
`(u0, v0, u1, v1)`, texture reference string, discrete UV rotation
(`i16`, embedded as `ℤ`) and the informational cullface. -/
structure McModelFace (α : Type) where
  uv : α × α × α × α
  texture : String
  rotation : ℤ
  cullface : Option McModelDirection
deriving DecidableEq, Repr

/-- Sigil stripping, the source's strip of the leading hash character: the reference with its leading sigil character
removed, or `none` when the sigil is absent. -/
def stripHash (s : String) : Option String :=
  match s.data with
  | [] => none
  | c :: rest => if c = '#' then some ⟨rest⟩ else none

/-- Resolution of a face's texture reference to an atlas rectangle (source
lines 303–307): a missing `#` sigil is fatal (`MalformedReference`); a
stripped id without an atlas allocation falls back to the reserved `err_tex`
rectangle. -/
def resolveRect {α : Type} (mappings : List (String × Rect)) (errTex : Rect)
    (face : McModelFace α) : Except ConvError Rect :=
  match stripHash face.texture with
  | none => .error .malformedReference
  | some id =>
    match mappings.lookup id with
    | some mapping => .ok mapping
    | none => .ok errTex

/-- The inward bleed epsilon `(2048.0 * 16.0).recip()` (source line 301). -/
def bleedEps (α : Type) [LinearOrderedField α] : α := (2048 * 16 : α)⁻¹

/-- The discrete face-rotation table of `get_uv` (source lines 310–317),
acting on the already V-flipped corner tuple; any rotation outside
`{0, 90, 180, 270}` is fatal. -/
def rotate_uv {β : Type} (rotation : ℤ) (uv : β × β × β × β) :
    Except ConvError (Bool × (β × β × β × β)) :=
  let (u0, v0, u1, v1) := uv
  if rotation = 0 then .ok (false, (u0, v0, u1, v1))
  else if rotation = 90 then .ok (true, (u0, v1, u1, v0))
  else if rotation = 180 then .ok (false, (u1, v1, u0, v0))
  else if rotation = 270 then .ok (true, (u1, v0, u0, v1))
  else .error (.unsupportedRotation rotation)

/-- UV resolution `get_uv` (source lines 302–334): resolve a face's declared texel-space UV
rectangle to atlas-normalised coordinates.  Steps: resolve the atlas
rectangle, swap `v0`/`v1`, apply the discrete rotation, translate by the
rectangle's minimum corner and divide by 2048, then move each coordinate pair
by the bleed epsilon (inward when strictly ordered, apart when equal). -/
def get_uv {α : Type} [LinearOrderedField α] (mappings : List (String × Rect))
    (errTex : Rect) (face : McModelFace α) :
    Except ConvError (Bool × (α × α × α × α)) := do
  let offset ← resolveRect mappings errTex face
  let (u0, v0, u1, v1) := face.uv
  let (v0, v1) := (v1, v0)
  let (flip, (u0, v0, u1, v1)) ← rotate_uv face.rotation (u0, v0, u1, v1)
  let u0 := ((offset.minX : α) + u0) / 2048
  let v0 := ((offset.minY : α) + v0) / 2048
  let u1 := ((offset.minX : α) + u1) / 2048
  let v1 := ((offset.minY : α) + v1) / 2048
  let (u0, u1) :=
    if u0 < u1 then (u0 + bleedEps α, u1 - bleedEps α)
    else (u0 - bleedEps α, u1 + bleedEps α)
  let (v0, v1) :=
    if v0 < v1 then (v0 + bleedEps α, v1 - bleedEps α)
    else (v0 - bleedEps α, v1 + bleedEps α)
  return (flip, (u0, v0, u1, v1))

/-- Swap of `v0`/`v1` in the declared corner tuple (source line 309). -/
def vflipUv {β : Type} (q : β × β × β × β) : β × β × β × β :=
  let (u0, v0, u1, v1) := q
  (u0, v1, u1, v0)

/-- Translation of each U by the rectangle's minimum x and each V by its
minimum y, normalised by the fixed 2048 atlas dimension (source lines
319–322). -/
def uvTranslateNormalize {α : Type} [LinearOrderedField α] (rect : Rect)
    (q : α × α × α × α) : α × α × α × α :=
  let (u0, v0, u1, v1) := q
  (((rect.minX : α) + u0) / 2048, ((rect.minY : α) + v0) / 2048,
    ((rect.minX : α) + u1) / 2048, ((rect.minY : α) + v1) / 2048)

/-- Bleed correction of one coordinate pair (source lines 323–332): each
coordinate moves by the bleed epsilon, inward when the pair is strictly
ordered and apart when equal. -/
def uvBleedPair {α : Type} [LinearOrderedField α] (a b : α) : α × α :=
  if a < b then (a + bleedEps α, b - bleedEps α) else (a - bleedEps α, b + bleedEps α)

/-- Bleed correction of both UV coordinate pairs. -/
def uvBleedInward {α : Type} [LinearOrderedField α] (q : α × α × α × α) :
    α × α × α × α :=
  let (u0, v0, u1, v1) := q
  let (u0, u1) := uvBleedPair u0 u1
  let (v0, v1) := uvBleedPair v0 v1
  (u0, v0, u1, v1)

/-- The resolution pipeline exactly as the claim words it, without the
discrete-rotation permutation between the V-flip and the translation. -/
def uvResolveUnpermuted {α : Type} [LinearOrderedField α] (rect : Rect)
    (q : α × α × α × α) : α × α × α × α :=
  uvBleedInward (uvTranslateNormalize rect (vflipUv q))

theorem resolveRect_of_sigil {α : Type} (mappings : List (String × Rect))
    (errTex : Rect) (face : McModelFace α) (id : String)
    (h : stripHash face.texture = some id) :
    resolveRect mappings errTex face = .ok ((mappings.lookup id).getD errTex) := by
  cases hl : mappings.lookup id with
  | none => simp [resolveRect, h, hl]
  | some r => simp [resolveRect, h, hl]

theorem resolveRect_no_sigil {α : Type} (mappings : List (String × Rect))
    (errTex : Rect) (face : McModelFace α)
    (h : stripHash face.texture = none) :
    resolveRect mappings errTex face = .error .malformedReference := by
  unfold resolveRect
  rw [h]

theorem get_uv_eq_map {α : Type} [LinearOrderedField α]
    (mappings : List (String × Rect)) (errTex : Rect) (face : McModelFace α)
    (rect : Rect) (h : resolveRect mappings errTex face = .ok rect) :
    get_uv mappings errTex face =
      (rotate_uv face.rotation (vflipUv face.uv)).map
        (fun fm => (fm.1, uvBleedInward (uvTranslateNormalize rect fm.2))) := by
  obtain ⟨⟨u0, v0, u1, v1⟩, tex, rot, cf⟩ := face
  simp only [get_uv, h, vflipUv]
  cases hr : rotate_uv rot (u0, v1, u1, v0) with
  | error e => rfl
  | ok fm =>
    obtain ⟨flip, m0, m1, m2, m3⟩ := fm
    rfl

/-- A concrete 16×16 fallback rectangle at the canvas origin, used to
instantiate the theorems. -/
def errTex16 : Rect := ⟨0, 0, 16, 16⟩

theorem rotate_uv_unsupported {β : Type} (r : ℤ) (q : β × β × β × β)
    (h0 : r ≠ 0) (h90 : r ≠ 90) (h180 : r ≠ 180) (h270 : r ≠ 270) :
    rotate_uv r q = .error (.unsupportedRotation r) := by
  obtain ⟨a, b, c, d⟩ := q
  simp [rotate_uv, h0, h90, h180, h270]

theorem rotate_uv_error_eq {β : Type} {r : ℤ} {q : β × β × β × β} {e : ConvError}
    (h : rotate_uv r q = .error e) : e = .unsupportedRotation r := by
  obtain ⟨a, b, c, d⟩ := q
  unfold rotate_uv at h
  split_ifs at h
  all_goals simp_all

theorem rotate_uv_supported_ok {β : Type} (r : ℤ) (q : β × β × β × β)
    (h : r = 0 ∨ r = 90 ∨ r = 180 ∨ r = 270) :
    ∃ fm, rotate_uv r q = .ok fm := by
  obtain ⟨a, b, c, d⟩ := q
  rcases h with h | h | h | h <;> subst h
  · exact ⟨(false, a, b, c, d), by norm_num [rotate_uv]⟩
  · exact ⟨(true, a, d, c, b), by norm_num [rotate_uv]⟩
  · exact ⟨(false, c, d, a, b), by norm_num [rotate_uv]⟩
  · exact ⟨(true, c, b, a, d), by norm_num [rotate_uv]⟩

theorem get_uv_no_sigil {α : Type} [LinearOrderedField α]
    (mappings : List (String × Rect)) (errTex : Rect) (face : McModelFace α)
    (h : stripHash face.texture = none) :
    get_uv mappings errTex face = .error .malformedReference := by
  obtain ⟨⟨u0, v0, u1, v1⟩, tex, rot, cf⟩ := face
  simp only [get_uv, resolveRect_no_sigil _ _ _ h]
  rfl

/-- C2: `get_uv` applies the discrete face rotation exactly as tabulated on
the V-flipped corner tuple — 0° is the identity with no swap flag, 90° swaps
the two V components with the swap flag set, 180° swaps `u0↔u1` and `v0↔v1`
with no swap flag, 270° swaps the two U components with the swap flag set —
and every other rotation value makes the conversion fail with
`UnsupportedRotation`. -/
theorem c2_uv_rotation_table {α : Type} [LinearOrderedField α]
    (u0 v0 u1 v1 : α) (r : ℤ) (mappings : List (String × Rect)) (errTex : Rect)
    (face : McModelFace α) :
    rotate_uv 0 (u0, v0, u1, v1) = .ok (false, (u0, v0, u1, v1)) ∧
    rotate_uv 90 (u0, v0, u1, v1) = .ok (true, (u0, v1, u1, v0)) ∧
    rotate_uv 180 (u0, v0, u1, v1) = .ok (false, (u1, v1, u0, v0)) ∧
    rotate_uv 270 (u0, v0, u1, v1) = .ok (true, (u1, v0, u0, v1)) ∧
    (r ≠ 0 → r ≠ 90 → r ≠ 180 → r ≠ 270 →
      rotate_uv r (u0, v0, u1, v1) = .error (.unsupportedRotation r)) ∧
    (∀ id, stripHash face.texture = some id → face.rotation ≠ 0 →
      face.rotation ≠ 90 → face.rotation ≠ 180 → face.rotation ≠ 270 →
      get_uv mappings errTex face = .error (.unsupportedRotation face.rotation)) := by
  refine ⟨by norm_num [rotate_uv], by norm_num [rotate_uv], by norm_num [rotate_uv],
    by norm_num [rotate_uv], rotate_uv_unsupported r _, ?_⟩
  intro id hsig h0 h90 h180 h270
  rw [get_uv_eq_map mappings errTex face _ (resolveRect_of_sigil mappings errTex face id hsig),
    rotate_uv_unsupported _ _ h0 h90 h180 h270]
  rfl

/-- Concrete instantiation of `c2_uv_rotation_table`: corners `(1,2,3,4)` for
the four supported rotations, and a face with rotation 45 failing with
`UnsupportedRotation`. -/
theorem c2_uv_rotation_table_witness :
    rotate_uv 45 ((1 : ℚ), 2, 3, 4) = .error (.unsupportedRotation 45) ∧
    get_uv (α := ℚ) [] errTex16 ⟨(0, 0, 16, 16), "#t", 45, none⟩ =
      .error (.unsupportedRotation 45) := by
  have h := c2_uv_rotation_table (1 : ℚ) 2 3 4 45 [] errTex16
    ⟨(0, 0, 16, 16), "#t", 45, none⟩
  exact ⟨h.2.2.2.2.1 (by decide) (by decide) (by decide) (by decide),
    h.2.2.2.2.2 "t" (by decide) (by decide) (by decide) (by decide) (by decide)⟩

/-- C3 (counterexample): the claim's literal pipeline is falsified twice on
concrete faces.  (i) For a face rotated 90° the resolved UVs do not equal the
V-flipped rectangle translated/normalised/bled without the rotation
permutation.  (ii) For a face whose declared U span is smaller than twice the
bleed epsilon (declared `u0 = 0 < u1 = 1/32`), the bleed step reverses which
U coordinate is numerically larger instead of preserving it. -/
theorem c3_uv_formula_counterexample :
    (get_uv (α := ℚ) [] errTex16 ⟨(1, 2, 3, 4), "#t", 90, none⟩ =
        .ok (true, (17/32768, 33/32768, 47/32768, 63/32768)) ∧
      uvResolveUnpermuted (α := ℚ) errTex16 (1, 2, 3, 4) =
        (17/32768, 63/32768, 47/32768, 33/32768) ∧
      ((17 : ℚ)/32768, (33 : ℚ)/32768, (47 : ℚ)/32768, (63 : ℚ)/32768) ≠
        uvResolveUnpermuted (α := ℚ) errTex16 (1, 2, 3, 4)) ∧
    (get_uv (α := ℚ) [] errTex16 ⟨(0, 0, 1/32, 16), "#t", 0, none⟩ =
        .ok (false, (1/32768, 255/32768, -1/65536, 1/32768)) ∧
      (0 : ℚ) < 1/32 ∧ ¬ ((1 : ℚ)/32768 < -1/65536)) := by
  have hres : ∀ uv rot, resolveRect (α := ℚ) [] errTex16 ⟨uv, "#t", rot, none⟩ =
      .ok errTex16 := by
    intro uv rot
    rfl
  refine ⟨⟨?_, ?_, ?_⟩, ?_, by norm_num, by norm_num⟩
  · rw [get_uv_eq_map [] errTex16 _ errTex16 (hres _ _),
      show rotate_uv 90 (vflipUv ((1 : ℚ), 2, 3, 4)) = .ok (true, (1, 2, 3, 4)) from rfl]
    norm_num [Except.map, uvBleedInward, uvTranslateNormalize, uvBleedPair, bleedEps,
      errTex16]
  · norm_num [uvResolveUnpermuted, vflipUv, uvBleedInward, uvTranslateNormalize,
      uvBleedPair, bleedEps, errTex16]
  · norm_num [uvResolveUnpermuted, vflipUv, uvBleedInward, uvTranslateNormalize,
      uvBleedPair, bleedEps, errTex16]
  · rw [get_uv_eq_map [] errTex16 _ errTex16 (hres _ _),
      show rotate_uv 0 (vflipUv ((0 : ℚ), 0, 1/32, 16)) = .ok (false, (0, 16, 1/32, 0))
        from rfl]
    norm_num [Except.map, uvBleedInward, uvTranslateNormalize, uvBleedPair, bleedEps,
      errTex16]

/-- C3 (amended): for every face whose rotation is supported, the resolved
UVs equal the declared rectangle V-flipped, permuted by the discrete
rotation, translated by the matched rectangle's minimum corner, divided by
2048 in both axes, and finally each coordinate pair moved by exactly
`1/(2048*16)` (inward when strictly ordered, apart when equal); this
preserves which coordinate is numerically larger whenever the normalised
pair differs by more than `2/(2048*16)`. -/
theorem c3_uv_formula_amended {α : Type} [LinearOrderedField α]
    (mappings : List (String × Rect)) (errTex rect : Rect)
    (face : McModelFace α) (flip : Bool) (mid : α × α × α × α)
    (h1 : resolveRect mappings errTex face = .ok rect)
    (h2 : rotate_uv face.rotation (vflipUv face.uv) = .ok (flip, mid)) :
    get_uv mappings errTex face =
      .ok (flip, uvBleedInward (uvTranslateNormalize rect mid)) ∧
    (∀ a b : α,
      (a + 2 * bleedEps α < b → (uvBleedPair a b).1 < (uvBleedPair a b).2) ∧
      (b + 2 * bleedEps α < a → (uvBleedPair a b).2 < (uvBleedPair a b).1)) := by
  constructor
  · rw [get_uv_eq_map mappings errTex face rect h1, h2]
    rfl
  · intro a b
    have hb : 0 < bleedEps α := by
      unfold bleedEps
      positivity
    constructor
    · intro hab
      have hlt : a < b := by linarith
      simp only [uvBleedPair, if_pos hlt]
      linarith
    · intro hab
      have hlt : ¬ a < b := by linarith
      simp only [uvBleedPair, if_neg hlt]
      linarith

/-- Concrete instantiation of `c3_uv_formula_amended` at a 90°-rotated face
against the fallback rectangle. -/
theorem c3_uv_formula_amended_witness :
    get_uv (α := ℚ) [] errTex16 ⟨(1, 2, 3, 4), "#t", 90, none⟩ =
      .ok (true, uvBleedInward (uvTranslateNormalize errTex16 (1, 2, 3, 4))) :=
  (c3_uv_formula_amended [] errTex16 errTex16 ⟨(1, 2, 3, 4), "#t", 90, none⟩
    true (1, 2, 3, 4) (by decide) (by decide)).1

/-- C6 (counterexample): a face whose reference has the sigil and whose
stripped id has no atlas allocation, yet whose conversion does not succeed —
its rotation 45 is unsupported, so "the conversion still succeeds" does not
follow from sigil-present plus missing allocation alone. -/
theorem c6_reference_resolution_counterexample :
    stripHash "#missing" = some "missing" ∧
    List.lookup "missing" ([] : List (String × Rect)) = none ∧
    get_uv (α := ℚ) [] errTex16 ⟨(0, 0, 16, 16), "#missing", 45, none⟩ =
      .error (.unsupportedRotation 45) := by
  decide

/-- C6 (amended): reference resolution fails the conversion with
`MalformedReference` exactly when the reference lacks the leading sigil; when
the sigil is present and the stripped id has no atlas allocation, the
reserved fallback rectangle is substituted and, provided the face's rotation
is supported, the conversion of that face still succeeds — a texture-load
failure is never itself fatal. -/
theorem c6_reference_resolution_amended {α : Type} [LinearOrderedField α]
    (mappings : List (String × Rect)) (errTex : Rect) (face : McModelFace α) :
    (get_uv mappings errTex face = .error .malformedReference ↔
      stripHash face.texture = none) ∧
    (∀ id, stripHash face.texture = some id → mappings.lookup id = none →
      resolveRect mappings errTex face = .ok errTex ∧
      ((face.rotation = 0 ∨ face.rotation = 90 ∨ face.rotation = 180 ∨
          face.rotation = 270) →
        ∃ out, get_uv mappings errTex face = .ok out)) := by
  constructor
  · constructor
    · intro h
      cases hs : stripHash face.texture with
      | none => rfl
      | some id =>
        exfalso
        rw [get_uv_eq_map mappings errTex face _
          (resolveRect_of_sigil mappings errTex face id hs)] at h
        cases hr : rotate_uv face.rotation (vflipUv face.uv) with
        | ok fm =>
          rw [hr] at h
          simp [Except.map] at h
        | error e =>
          rw [hr] at h
          have he : e = .unsupportedRotation face.rotation := rotate_uv_error_eq hr
          simp only [Except.map, Except.error.injEq] at h
          rw [he] at h
          exact ConvError.noConfusion h
    · intro h
      exact get_uv_no_sigil mappings errTex face h
  · intro id hs hlook
    have hres : resolveRect mappings errTex face = .ok errTex := by
      rw [resolveRect_of_sigil mappings errTex face id hs, hlook]
      rfl
    refine ⟨hres, ?_⟩
    intro hrot
    obtain ⟨fm, hfm⟩ := rotate_uv_supported_ok face.rotation (vflipUv face.uv) hrot
    exact ⟨_, by rw [get_uv_eq_map mappings errTex face _ hres, hfm]; rfl⟩

/-- Concrete instantiation of `c6_reference_resolution_amended`: a face
referencing an unallocated id with a supported rotation resolves to the
fallback rectangle and succeeds. -/
theorem c6_reference_resolution_amended_witness :
    resolveRect ([] : List (String × Rect)) errTex16
      (⟨(0, 0, 16, 16), "#nope", 0, none⟩ : McModelFace ℚ) = .ok errTex16 ∧
    ∃ out, get_uv (α := ℚ) [] errTex16 ⟨(0, 0, 16, 16), "#nope", 0, none⟩ =
      .ok out := by
  have h := (c6_reference_resolution_amended [] errTex16
    (⟨(0, 0, 16, 16), "#nope", 0, none⟩ : McModelFace ℚ)).2 "nope"
    (by decide) (by decide)
  exact ⟨h.1, h.2 (Or.inl (by decide))⟩

/-- A 3-vector of coordinates. -/
structure V3 (α : Type) where
  x : α
  y : α
  z : α
deriving DecidableEq, Repr

def V3.add {α : Type} [LinearOrderedField α] (a b : V3 α) : V3 α :=
  ⟨a.x + b.x, a.y + b.y, a.z + b.z⟩

def V3.sub {α : Type} [LinearOrderedField α] (a b : V3 α) : V3 α :=
  ⟨a.x - b.x, a.y - b.y, a.z - b.z⟩

/-- Application of the 3×3 linear part of `cgmath`'s
`Matrix4::from_angle_x/y/z` (an external crate) to a vector, with the cosine
`c` and sine `s` of the angle passed explicitly: the pure rotation about the
given global axis. -/
def rotApply {α : Type} [LinearOrderedField α] (axis : McModelRotationAxis)
    (c s : α) (v : V3 α) : V3 α :=
  match axis with
  | .x => ⟨v.x, c * v.y - s * v.z, s * v.y + c * v.z⟩
  | .y => ⟨c * v.x + s * v.z, v.y, -s * v.x + c * v.z⟩
  | .z => ⟨c * v.x - s * v.y, s * v.x + c * v.y, v.z⟩

/-- Element rotation record `McModelRotation` (source lines 97–102). -/
structure McModelRotation (α : Type) where
  angle : α
  axis : McModelRotationAxis
  origin : V3 α
deriving DecidableEq, Repr

/-- Optional-face record `McModelFaces` (source lines 113–121). -/
structure McModelFaces (α : Type) where
  north : Option (McModelFace α)
  east : Option (McModelFace α)
  south : Option (McModelFace α)
  west : Option (McModelFace α)
  up : Option (McModelFace α)
  down : Option (McModelFace α)
deriving DecidableEq, Repr

/-- Cuboid element `McModelElement` (source lines 123–129).  The corner fields are the
source's `from`/`to` (renamed `efrom`/`eto`: `from` is reserved in Lean). -/
structure McModelElement (α : Type) where
  efrom : V3 α
  eto : V3 α
  faces : McModelFaces α
  rotation : Option (McModelRotation α)
deriving DecidableEq, Repr

/-- Display preset `McModelDisplay::FirstpersonRighthand` (source lines 131–139); carried in
the model but never read by the conversion. -/
structure McModelDisplay (α : Type) where
  rotation : V3 α
  translation : V3 α
  scale : V3 α
deriving DecidableEq, Repr

/-- Model document `McModelJson` (source lines 141–148).  The `IndexMap` of textures is
embedded as an ordered association list. -/
structure McModelJson (α : Type) where
  parent : String
  display : Option (McModelDisplay α)
  textures : List (String × String)
  elements : List (McModelElement α)
deriving DecidableEq, Repr

/-- Corner ordering `minmax` (source lines 495–501). -/
def minmax {α : Type} [LinearOrder α] (a b : α) : α × α :=
  if a < b then (a, b) else (b, a)

/-- Enabled-face count `faces_enabled` (source lines 152–173): number of enabled faces of one
element. -/
def McModelElement.faces_enabled {α : Type} (e : McModelElement α) : Nat :=
  (if e.faces.north.isSome then 1 else 0) + (if e.faces.east.isSome then 1 else 0) +
    (if e.faces.south.isSome then 1 else 0) + (if e.faces.west.isSome then 1 else 0) +
    (if e.faces.up.isSome then 1 else 0) + (if e.faces.down.isSome then 1 else 0)

/-- Whole-model face count `face_count` (source lines 198–221): total number of enabled faces over
all elements. -/
def McModelJson.face_count {α : Type} (m : McModelJson α) : Nat :=
  m.elements.foldl
    (fun count e =>
      count + (if e.faces.north.isSome then 1 else 0) +
        (if e.faces.east.isSome then 1 else 0) +
        (if e.faces.south.isSome then 1 else 0) +
        (if e.faces.west.isSome then 1 else 0) +
        (if e.faces.up.isSome then 1 else 0) +
        (if e.faces.down.isSome then 1 else 0))
    0

/-- The six `push_pos` argument tuples of one face (source lines 359–472):
per direction and swap flag, the raw corner positions built from the
element's min/max corners `p0`/`p1`, the UV assignment, and the direction's
flat shading colour. -/
def faceRaw {α : Type} (dir : McModelDirection) (rotate : Bool)
    (uv : α × α × α × α) (p0 p1 : V3 α) : List (Vec3S α) :=
  let (u0, v0, u1, v1) := uv
  let color := dir.get_shading_srgba
  match dir, rotate with
  | .north, false =>
    [⟨p0.x, p0.y, p0.z, u1, v0, color⟩, ⟨p0.x, p1.y, p0.z, u1, v1, color⟩,
      ⟨p1.x, p1.y, p0.z, u0, v1, color⟩, ⟨p1.x, p1.y, p0.z, u0, v1, color⟩,
      ⟨p1.x, p0.y, p0.z, u0, v0, color⟩, ⟨p0.x, p0.y, p0.z, u1, v0, color⟩]
  | .north, true =>
    [⟨p0.x, p0.y, p0.z, u1, v0, color⟩, ⟨p0.x, p1.y, p0.z, u0, v0, color⟩,
      ⟨p1.x, p1.y, p0.z, u0, v1, color⟩, ⟨p1.x, p1.y, p0.z, u0, v1, color⟩,
      ⟨p1.x, p0.y, p0.z, u1, v1, color⟩, ⟨p0.x, p0.y, p0.z, u1, v0, color⟩]
  | .east, false =>
    [⟨p1.x, p0.y, p0.z, u1, v0, color⟩, ⟨p1.x, p1.y, p0.z, u1, v1, color⟩,
      ⟨p1.x, p1.y, p1.z, u0, v1, color⟩, ⟨p1.x, p1.y, p1.z, u0, v1, color⟩,
      ⟨p1.x, p0.y, p1.z, u0, v0, color⟩, ⟨p1.x, p0.y, p0.z, u1, v0, color⟩]
  | .east, true =>
    [⟨p1.x, p0.y, p0.z, u1, v0, color⟩, ⟨p1.x, p1.y, p0.z, u0, v0, color⟩,
      ⟨p1.x, p1.y, p1.z, u0, v1, color⟩, ⟨p1.x, p1.y, p1.z, u0, v1, color⟩,
      ⟨p1.x, p0.y, p1.z, u1, v1, color⟩, ⟨p1.x, p0.y, p0.z, u1, v0, color⟩]
  | .south, false =>
    [⟨p1.x, p0.y, p1.z, u1, v0, color⟩, ⟨p1.x, p1.y, p1.z, u1, v1, color⟩,
      ⟨p0.x, p1.y, p1.z, u0, v1, color⟩, ⟨p0.x, p1.y, p1.z, u0, v1, color⟩,
      ⟨p0.x, p0.y, p1.z, u0, v0, color⟩, ⟨p1.x, p0.y, p1.z, u1, v0, color⟩]
  | .south, true =>
    [⟨p1.x, p0.y, p1.z, u1, v0, color⟩, ⟨p1.x, p1.y, p1.z, u0, v0, color⟩,
      ⟨p0.x, p1.y, p1.z, u0, v1, color⟩, ⟨p0.x, p1.y, p1.z, u0, v1, color⟩,
      ⟨p0.x, p0.y, p1.z, u1, v1, color⟩, ⟨p1.x, p0.y, p1.z, u1, v0, color⟩]
  | .west, false =>
    [⟨p0.x, p0.y, p1.z, u1, v0, color⟩, ⟨p0.x, p1.y, p1.z, u1, v1, color⟩,
      ⟨p0.x, p1.y, p0.z, u0, v1, color⟩, ⟨p0.x, p1.y, p0.z, u0, v1, color⟩,
      ⟨p0.x, p0.y, p0.z, u0, v0, color⟩, ⟨p0.x, p0.y, p1.z, u1, v0, color⟩]
  | .west, true =>
    [⟨p0.x, p0.y, p1.z, u1, v0, color⟩, ⟨p0.x, p1.y, p1.z, u0, v0, color⟩,
      ⟨p0.x, p1.y, p0.z, u0, v1, color⟩, ⟨p0.x, p1.y, p0.z, u0, v1, color⟩,
      ⟨p0.x, p0.y, p0.z, u1, v1, color⟩, ⟨p0.x, p0.y, p1.z, u1, v0, color⟩]
  | .up, false =>
    [⟨p1.x, p1.y, p1.z, u1, v0, color⟩, ⟨p1.x, p1.y, p0.z, u1, v1, color⟩,
      ⟨p0.x, p1.y, p0.z, u0, v1, color⟩, ⟨p0.x, p1.y, p0.z, u0, v1, color⟩,
      ⟨p0.x, p1.y, p1.z, u0, v0, color⟩, ⟨p1.x, p1.y, p1.z, u1, v0, color⟩]
  | .up, true =>
    [⟨p1.x, p1.y, p1.z, u1, v0, color⟩, ⟨p1.x, p1.y, p0.z, u0, v0, color⟩,
      ⟨p0.x, p1.y, p0.z, u0, v1, color⟩, ⟨p0.x, p1.y, p0.z, u0, v1, color⟩,
      ⟨p0.x, p1.y, p1.z, u1, v1, color⟩, ⟨p1.x, p1.y, p1.z, u1, v0, color⟩]
  | .down, false =>
    [⟨p1.x, p0.y, p0.z, u1, v0, color⟩, ⟨p1.x, p0.y, p1.z, u1, v1, color⟩,
      ⟨p0.x, p0.y, p1.z, u0, v1, color⟩, ⟨p0.x, p0.y, p1.z, u0, v1, color⟩,
      ⟨p0.x, p0.y, p0.z, u0, v0, color⟩, ⟨p1.x, p0.y, p0.z, u1, v0, color⟩]
  | .down, true =>
    [⟨p1.x, p0.y, p0.z, u1, v0, color⟩, ⟨p1.x, p0.y, p1.z, u0, v0, color⟩,
      ⟨p0.x, p0.y, p1.z, u0, v1, color⟩, ⟨p0.x, p0.y, p1.z, u0, v1, color⟩,
      ⟨p0.x, p0.y, p0.z, u1, v1, color⟩, ⟨p1.x, p0.y, p0.z, u1, v0, color⟩]

/-- UV resolution and raw emission of one optional face. -/
def faceEmit {α : Type} [LinearOrderedField α] (mappings : List (String × Rect))
    (errTex : Rect) (dir : McModelDirection) (oface : Option (McModelFace α))
    (p0 p1 : V3 α) : Except ConvError (List (Vec3S α)) :=
  match oface with
  | none => .ok []
  | some face => (get_uv mappings errTex face).map (fun fm => faceRaw dir fm.1 fm.2 p0 p1)

/-- The element's reconstructed box corners (source lines 353–358). -/
def elemCorners {α : Type} [LinearOrderedField α] (e : McModelElement α) :
    V3 α × V3 α :=
  let (x0, x1) := minmax e.efrom.x e.eto.x
  let (y0, y1) := minmax e.efrom.y e.eto.y
  let (z0, z1) := minmax e.efrom.z e.eto.z
  (⟨x0, y0, z0⟩, ⟨x1, y1, z1⟩)

/-- The raw (untransformed) push sequence of one element: its six optional
faces emitted in source order (north, east, south, west, up, down). -/
def elementRaw {α : Type} [LinearOrderedField α] (mappings : List (String × Rect))
    (errTex : Rect) (e : McModelElement α) : Except ConvError (List (Vec3S α)) := do
  let (p0, p1) := elemCorners e
  let n ← faceEmit mappings errTex .north e.faces.north p0 p1
  let ea ← faceEmit mappings errTex .east e.faces.east p0 p1
  let s ← faceEmit mappings errTex .south e.faces.south p0 p1
  let w ← faceEmit mappings errTex .west e.faces.west p0 p1
  let u ← faceEmit mappings errTex .up e.faces.up p0 p1
  let d ← faceEmit mappings errTex .down e.faces.down p0 p1
  return n ++ ea ++ s ++ w ++ u ++ d

/-- The element's rotation matrix and origin (source lines 337–347): with a
declared rotation, the pure axis rotation by its angle (through the supplied
cosine/sine of degrees) and its origin; otherwise the identity and the zero
origin.  `cosd`/`sind` abstract the external crate's trigonometry of an angle
in degrees. -/
def elemMat {α : Type} [LinearOrderedField α] (cosd sind : α → α) :
    Option (McModelRotation α) → (V3 α → V3 α) × V3 α
  | some rot => (rotApply rot.axis (cosd rot.angle) (sind rot.angle), rot.origin)
  | none => (id, ⟨0, 0, 0⟩)

def posV {α : Type} (it : Vec3S α) : V3 α := ⟨it.x, it.y, it.z⟩

def setPos {α : Type} (it : Vec3S α) (p : V3 α) : Vec3S α :=
  { it with x := p.x, y := p.y, z := p.z }

/-- The element's position transform (source lines 348–351):
`rot.transform_vector(v − origin) + origin`. -/
def elemTf {α : Type} [LinearOrderedField α] (cosd sind : α → α)
    (orot : Option (McModelRotation α)) (v : V3 α) : V3 α :=
  let (m, origin) := elemMat cosd sind orot
  V3.add (m (V3.sub v origin)) origin

/-- All pushes of one element: the raw face emission with the element
transform applied to every position (the source's inner `push_pos`
closure). -/
def elementPushes {α : Type} [LinearOrderedField α] (cosd sind : α → α)
    (mappings : List (String × Rect)) (errTex : Rect) (e : McModelElement α) :
    Except ConvError (List (Vec3S α)) :=
  (elementRaw mappings errTex e).map
    (fun raw => raw.map (fun it => setPos it (elemTf cosd sind e.rotation (posV it))))

/-- All pushes of the model, elements in declared order. -/
def modelPushes {α : Type} [LinearOrderedField α] (cosd sind : α → α)
    (mappings : List (String × Rect)) (errTex : Rect) :
    List (McModelElement α) → Except ConvError (List (Vec3S α))
  | [] => .ok []
  | e :: rest => do
    let a ← elementPushes cosd sind mappings errTex e
    let b ← modelPushes cosd sind mappings errTex rest
    return a ++ b

/-- The index buffer of the produced mesh (`three_d`'s `Indices`): absent, or
8-, 16- or 32-bit wide. -/
inductive IndicesBuf
  | none
  | u8 (l : List Nat)
  | u16 (l : List Nat)
  | u32 (l : List Nat)
deriving DecidableEq, Repr

def IndicesBuf.toList : IndicesBuf → List Nat
  | .none => []
  | .u8 l => l
  | .u16 l => l
  | .u32 l => l

/-- Index-width selection (source lines 476–482): the match on `datas.len()` —
`0` gives no index buffer, `1..=255` the 8-bit form, `256..=65535` the 16-bit
form, `65536..=4294967295` the 32-bit form, and anything larger is fatal.
The stored entries carry the source's width casts (`i as u8` / `i as u16`;
the `u32` cast happens at push time in the source and is the identity below
the bail threshold). -/
def buildIndices (nverts : Nat) (idx : List Nat) : Except ConvError IndicesBuf :=
  if nverts = 0 then .ok .none
  else if nverts ≤ 255 then .ok (.u8 (idx.map (· % 2 ^ 8)))
  else if nverts ≤ 65535 then .ok (.u16 (idx.map (· % 2 ^ 16)))
  else if nverts ≤ 4294967295 then .ok (.u32 (idx.map (· % 2 ^ 32)))
  else .error .tooManyVertices

/-- The produced mesh (`three_d`'s `CpuMesh`): deduplicated positions, the
index buffer, and the parallel UV and colour buffers.  The derived
normal/tangent/bounding-box buffers are computed by external `three_d`
routines and are not modelled; the source's `f64 → f32` narrowing of the UV
buffer is likewise left exact. -/
structure CpuMesh (α : Type) where
  positions : List (V3 α)
  indices : IndicesBuf
  uvs : List (α × α)
  colors : List Srgba
deriving DecidableEq, Repr

/-- The mesh-building phase of `to_cpu_mesh` (source lines 266–491): emit all
elements' faces, deduplicate the vertices, select the index width and flatten
the buffers in first-seen order. -/
def build_mesh {α : Type} [LinearOrderedField α] [DecidableEq α]
    (cosd sind : α → α) (mappings : List (String × Rect)) (errTex : Rect)
    (model : McModelJson α) : Except ConvError (CpuMesh α) := do
  let trace ← modelPushes cosd sind mappings errTex model.elements
  let acc := push_all ⟨[], []⟩ trace
  let idx ← buildIndices acc.datas.length acc.indices
  let positions := acc.datas.map (fun d => (⟨d.x, d.y, d.z⟩ : V3 α))
  let uvs := acc.datas.map (fun d => (d.u, d.v))
  let colors := acc.datas.map (fun d => d.color)
  return ⟨positions, idx, uvs, colors⟩

theorem except_bind_eq_ok {ε β γ : Type} {x : Except ε β} {f : β → Except ε γ}
    {c : γ} (h : x >>= f = .ok c) : ∃ b, x = .ok b ∧ f b = .ok c := by
  cases x with
  | error e => exact absurd h (by simp [Bind.bind, Except.bind])
  | ok b => exact ⟨b, rfl, by simpa [Bind.bind, Except.bind] using h⟩

theorem except_map_eq_ok {ε β γ : Type} {x : Except ε β} {f : β → γ} {c : γ}
    (h : x.map f = .ok c) : ∃ b, x = .ok b ∧ f b = c := by
  cases x with
  | error e => exact absurd h (by simp [Except.map])
  | ok b => exact ⟨b, rfl, by simpa [Except.map] using h⟩

theorem faceRaw_length {α : Type} (dir : McModelDirection) (rotate : Bool)
    (uv : α × α × α × α) (p0 p1 : V3 α) : (faceRaw dir rotate uv p0 p1).length = 6 := by
  obtain ⟨u0, v0, u1, v1⟩ := uv
  cases dir <;> cases rotate <;> rfl

theorem faceRaw_color {α : Type} {dir : McModelDirection} {rotate : Bool}
    {uv : α × α × α × α} {p0 p1 : V3 α} {it : Vec3S α}
    (h : it ∈ faceRaw dir rotate uv p0 p1) : it.color = dir.get_shading_srgba := by
  obtain ⟨u0, v0, u1, v1⟩ := uv
  cases dir <;> cases rotate <;>
    (simp only [faceRaw, List.mem_cons, List.not_mem_nil, or_false] at h;
      rcases h with h | h | h | h | h | h <;> (subst h; rfl))

theorem setPos_color {α : Type} (it : Vec3S α) (p : V3 α) :
    (setPos it p).color = it.color := rfl

/-- C7: every vertex emitted for a face of direction `d` carries the same
flat colour — the grey whose channels are `d`'s fixed shading multiplier
(North 0.8, East 0.6, South 0.8, West 0.6, Up 1.0, Down 0.5) at full
opacity: every face emits exactly six vertices, each of the six raw vertices
carries the direction's colour, resolving a face through `get_uv` and
emitting changes nothing about that, and the element transform (hence the
element's position) never alters a colour. -/
theorem c7_flat_face_shading {α : Type} [LinearOrderedField α]
    (mappings : List (String × Rect)) (errTex : Rect) (dir : McModelDirection)
    (rotate : Bool) (uv : α × α × α × α) (p0 p1 : V3 α) (cosd sind : α → α)
    (orot : Option (McModelRotation α)) (it : Vec3S α) (face : McModelFace α) :
    (faceRaw dir rotate uv p0 p1).length = 6 ∧
    (it ∈ faceRaw dir rotate uv p0 p1 → it.color = dir.get_shading_srgba) ∧
    (∀ l, faceEmit mappings errTex dir (some face) p0 p1 = .ok l →
      l.length = 6 ∧
      ∀ jt ∈ l.map (fun x => setPos x (elemTf cosd sind orot (posV x))),
        jt.color = dir.get_shading_srgba) ∧
    (McModelDirection.north.get_shading_srgba = ⟨4/5, 4/5, 4/5, 1⟩ ∧
      McModelDirection.east.get_shading_srgba = ⟨3/5, 3/5, 3/5, 1⟩ ∧
      McModelDirection.south.get_shading_srgba = ⟨4/5, 4/5, 4/5, 1⟩ ∧
      McModelDirection.west.get_shading_srgba = ⟨3/5, 3/5, 3/5, 1⟩ ∧
      McModelDirection.up.get_shading_srgba = ⟨1, 1, 1, 1⟩ ∧
      McModelDirection.down.get_shading_srgba = ⟨1/2, 1/2, 1/2, 1⟩) := by
  refine ⟨faceRaw_length dir rotate uv p0 p1, fun h => faceRaw_color h, ?_,
    rfl, rfl, rfl, rfl, rfl, rfl⟩
  intro l hl
  obtain ⟨fm, hfm, hmap⟩ := except_map_eq_ok hl
  subst hmap
  constructor
  · exact faceRaw_length dir fm.1 fm.2 p0 p1
  · intro jt hjt
    obtain ⟨x, hx, rfl⟩ := List.mem_map.mp hjt
    rw [setPos_color]
    exact faceRaw_color hx

/-- Concrete instantiation of `c7_flat_face_shading`: the first raw vertex of
an up face carries the Up colour `(1,1,1,1)`, the face emits six vertices,
and a resolved up face of a unit cube emits six vertices as well. -/
theorem c7_flat_face_shading_witness :
    ((⟨1, 1, 1, 0, 0, ⟨1, 1, 1, 1⟩⟩ : Vec3S ℚ) ∈
      faceRaw .up false ((0 : ℚ), 0, 0, 0) ⟨0, 0, 0⟩ ⟨1, 1, 1⟩ →
      (⟨1, 1, 1, 0, 0, ⟨1, 1, 1, 1⟩⟩ : Vec3S ℚ).color =
        McModelDirection.up.get_shading_srgba) ∧
    (⟨1, 1, 1, 0, 0, ⟨1, 1, 1, 1⟩⟩ : Vec3S ℚ).color =
      McModelDirection.up.get_shading_srgba ∧
    (faceRaw .up false ((0 : ℚ), 0, 0, 0) ⟨0, 0, 0⟩ ⟨1, 1, 1⟩).length = 6 := by
  have h := c7_flat_face_shading (α := ℚ) [] errTex16 .up false (0, 0, 0, 0)
    ⟨0, 0, 0⟩ ⟨1, 1, 1⟩ (fun _ => 1) (fun _ => 0) none
    ⟨1, 1, 1, 0, 0, ⟨1, 1, 1, 1⟩⟩ ⟨(0, 0, 0, 0), "#t", 0, none⟩
  exact ⟨h.2.1, h.2.1 (by decide), h.1⟩

theorem elemTf_none {α : Type} [LinearOrderedField α] (cosd sind : α → α)
    (v : V3 α) : elemTf cosd sind none v = v := by
  cases v
  simp [elemTf, elemMat, V3.add, V3.sub]

theorem setPos_posV {α : Type} (it : Vec3S α) : setPos it (posV it) = it := rfl

/-- C5: for an element declaring a rotation, every emitted position is the
untransformed template position `v` mapped through `R·(v − origin) + origin`,
where `R` is the pure rotation about the declared global axis through the
trigonometry of the declared angle and `origin` is the declared pivot — while
an element with no declared rotation emits its positions unchanged (its
transform is the identity). -/
theorem c5_element_rotation {α : Type} [LinearOrderedField α]
    (cosd sind : α → α) (mappings : List (String × Rect)) (errTex : Rect)
    (e : McModelElement α) (rot : McModelRotation α) (tr0 : List (Vec3S α)) :
    (e.rotation = some rot →
      elementPushes cosd sind mappings errTex { e with rotation := none } = .ok tr0 →
      elementPushes cosd sind mappings errTex e =
        .ok (tr0.map (fun it => setPos it
          (V3.add
            (rotApply rot.axis (cosd rot.angle) (sind rot.angle)
              (V3.sub (posV it) rot.origin))
            rot.origin)))) ∧
    (∀ v, elemTf cosd sind none v = v) := by
  refine ⟨?_, elemTf_none cosd sind⟩
  intro hrot htr0
  have hraw0 : elementRaw mappings errTex ({ e with rotation := none }) =
      elementRaw mappings errTex e := rfl
  unfold elementPushes at htr0 ⊢
  rw [hraw0] at htr0
  cases hraw : elementRaw mappings errTex e with
  | error err =>
    rw [hraw] at htr0
    exact absurd htr0 (by simp [Except.map])
  | ok raw =>
    rw [hraw] at htr0
    simp only [Except.map] at htr0 ⊢
    rw [Except.ok.injEq] at htr0 ⊢
    rw [← htr0, List.map_map]
    refine List.map_congr_left ?_
    intro it hmem
    show setPos it (elemTf cosd sind e.rotation (posV it)) =
      (fun jt => setPos jt
        (V3.add
          (rotApply rot.axis (cosd rot.angle) (sind rot.angle)
            (V3.sub (posV jt) rot.origin))
          rot.origin))
        (setPos it (elemTf cosd sind none (posV it)))
    rw [elemTf_none, setPos_posV, hrot]
    rfl

/-- Concrete instantiation of `c5_element_rotation`: an element rotated 90°
about the Y axis (cosine 0, sine 1) with origin at the canvas origin. -/
theorem c5_element_rotation_witness :
    elementPushes (α := ℚ) (fun _ => 0) (fun _ => 1) [] errTex16
        ⟨⟨0, 0, 0⟩, ⟨1, 1, 1⟩, ⟨none, none, none, none, none, none⟩,
          some ⟨90, .y, ⟨0, 0, 0⟩⟩⟩ = .ok [] := by
  have h := (c5_element_rotation (α := ℚ) (fun _ => 0) (fun _ => 1) [] errTex16
    ⟨⟨0, 0, 0⟩, ⟨1, 1, 1⟩, ⟨none, none, none, none, none, none⟩,
      some ⟨90, .y, ⟨0, 0, 0⟩⟩⟩ ⟨90, .y, ⟨0, 0, 0⟩⟩ []).1 rfl (by rfl)
  simpa using h

theorem face_count_aux {α : Type} (l : List (McModelElement α)) (c : Nat) :
    l.foldl
      (fun count e =>
        count + (if e.faces.north.isSome then 1 else 0) +
          (if e.faces.east.isSome then 1 else 0) +
          (if e.faces.south.isSome then 1 else 0) +
          (if e.faces.west.isSome then 1 else 0) +
          (if e.faces.up.isSome then 1 else 0) +
          (if e.faces.down.isSome then 1 else 0))
      c = c + (l.map McModelElement.faces_enabled).sum := by
  induction l generalizing c with
  | nil => simp
  | cons e t ih =>
    simp only [List.foldl_cons, List.map_cons, List.sum_cons]
    rw [ih]
    simp only [McModelElement.faces_enabled]
    ring

theorem face_count_eq_sum {α : Type} (m : McModelJson α) :
    m.face_count = (m.elements.map McModelElement.faces_enabled).sum := by
  unfold McModelJson.face_count
  rw [face_count_aux]
  simp

theorem faceEmit_ok_length {α : Type} [LinearOrderedField α]
    {mappings : List (String × Rect)} {errTex : Rect} {dir : McModelDirection}
    {oface : Option (McModelFace α)} {p0 p1 : V3 α} {l : List (Vec3S α)}
    (h : faceEmit mappings errTex dir oface p0 p1 = .ok l) :
    l.length = if oface.isSome then 6 else 0 := by
  cases oface with
  | none =>
    simp only [faceEmit, Except.ok.injEq] at h
    simp [← h]
  | some face =>
    obtain ⟨fm, _, hmap⟩ := except_map_eq_ok h
    subst hmap
    simp [faceRaw_length]

theorem elementRaw_ok_length {α : Type} [LinearOrderedField α]
    {mappings : List (String × Rect)} {errTex : Rect} {e : McModelElement α}
    {raw : List (Vec3S α)} (h : elementRaw mappings errTex e = .ok raw) :
    raw.length = 6 * e.faces_enabled := by
  unfold elementRaw at h
  rcases hpc : elemCorners e with ⟨p0, p1⟩
  rw [hpc] at h
  obtain ⟨n, hn, h⟩ := except_bind_eq_ok h
  obtain ⟨ea, hea, h⟩ := except_bind_eq_ok h
  obtain ⟨s, hs, h⟩ := except_bind_eq_ok h
  obtain ⟨w, hw, h⟩ := except_bind_eq_ok h
  obtain ⟨u, hu, h⟩ := except_bind_eq_ok h
  obtain ⟨d, hd, h⟩ := except_bind_eq_ok h
  have hraw : raw = n ++ ea ++ s ++ w ++ u ++ d := by
    simpa [pure, Except.pure] using h.symm
  subst hraw
  have h6 : ∀ (b : Bool), (if b then 6 else 0) = 6 * (if b then 1 else 0) := by
    intro b
    cases b <;> rfl
  simp only [List.length_append, faceEmit_ok_length hn, faceEmit_ok_length hea,
    faceEmit_ok_length hs, faceEmit_ok_length hw, faceEmit_ok_length hu,
    faceEmit_ok_length hd, McModelElement.faces_enabled, h6]
  ring

theorem elementPushes_ok_length {α : Type} [LinearOrderedField α]
    {cosd sind : α → α} {mappings : List (String × Rect)} {errTex : Rect}
    {e : McModelElement α} {tr : List (Vec3S α)}
    (h : elementPushes cosd sind mappings errTex e = .ok tr) :
    tr.length = 6 * e.faces_enabled := by
  unfold elementPushes at h
  obtain ⟨raw, hraw, hmap⟩ := except_map_eq_ok h
  subst hmap
  simp [elementRaw_ok_length hraw]

theorem modelPushes_ok_length {α : Type} [LinearOrderedField α]
    {cosd sind : α → α} {mappings : List (String × Rect)} {errTex : Rect} :
    ∀ {els : List (McModelElement α)} {trace : List (Vec3S α)},
      modelPushes cosd sind mappings errTex els = .ok trace →
      trace.length = 6 * (els.map McModelElement.faces_enabled).sum := by
  intro els
  induction els with
  | nil =>
    intro trace h
    simp only [modelPushes, Except.ok.injEq] at h
    simp [← h]
  | cons e t ih =>
    intro trace h
    simp only [modelPushes] at h
    obtain ⟨a, ha, h⟩ := except_bind_eq_ok h
    obtain ⟨b, hb, h⟩ := except_bind_eq_ok h
    have htr : trace = a ++ b := by
      simpa [pure, Except.pure] using h.symm
    subst htr
    simp only [List.length_append, elementPushes_ok_length ha, ih hb,
      List.map_cons, List.sum_cons]
    ring

theorem push_pos_indices_length {κ : Type} [DecidableEq κ] (acc : MeshAcc κ) (p : κ) :
    (push_pos acc p).indices.length = acc.indices.length + 1 := by
  unfold push_pos
  cases idxOfKey p acc.datas <;> simp

theorem push_all_indices_length {κ : Type} [DecidableEq κ] (ps : List κ)
    (acc : MeshAcc κ) :
    (push_all acc ps).indices.length = acc.indices.length + ps.length := by
  induction ps generalizing acc with
  | nil => simp [push_all]
  | cons p t ih =>
    show (push_all (push_pos acc p) t).indices.length = _
    rw [ih, push_pos_indices_length]
    simp only [List.length_cons]
    omega

theorem push_all_indices_lt {κ : Type} [DecidableEq κ] (ps : List κ)
    (acc : MeshAcc κ) (hinv : ∀ i ∈ acc.indices, i < acc.datas.length) :
    ∀ i ∈ (push_all acc ps).indices, i < (push_all acc ps).datas.length := by
  induction ps generalizing acc with
  | nil => exact hinv
  | cons p t ih =>
    show ∀ i ∈ (push_all (push_pos acc p) t).indices, _
    apply ih
    intro i hi
    cases hk : idxOfKey p acc.datas with
    | some j =>
      simp only [push_pos, hk] at hi ⊢
      rcases List.mem_append.mp hi with hmem | hmem
      · exact hinv i hmem
      · rw [List.mem_singleton.mp hmem]
        exact (idxOfKey_spec hk).1
    | none =>
      simp only [push_pos, hk, List.length_append, List.length_singleton] at hi ⊢
      rcases List.mem_append.mp hi with hmem | hmem
      · have := hinv i hmem
        omega
      · rw [List.mem_singleton.mp hmem]
        omega

theorem faces_enabled_eq_zero {α : Type} {e : McModelElement α}
    (h : e.faces_enabled = 0) :
    e.faces.north = none ∧ e.faces.east = none ∧ e.faces.south = none ∧
      e.faces.west = none ∧ e.faces.up = none ∧ e.faces.down = none := by
  unfold McModelElement.faces_enabled at h
  refine ⟨?_, ?_, ?_, ?_, ?_, ?_⟩
  · cases ho : e.faces.north with
    | none => rfl
    | some f => rw [ho] at h; simp only [Option.isSome_some, if_true] at h; omega
  · cases ho : e.faces.east with
    | none => rfl
    | some f => rw [ho] at h; simp only [Option.isSome_some, if_true] at h; omega
  · cases ho : e.faces.south with
    | none => rfl
    | some f => rw [ho] at h; simp only [Option.isSome_some, if_true] at h; omega
  · cases ho : e.faces.west with
    | none => rfl
    | some f => rw [ho] at h; simp only [Option.isSome_some, if_true] at h; omega
  · cases ho : e.faces.up with
    | none => rfl
    | some f => rw [ho] at h; simp only [Option.isSome_some, if_true] at h; omega
  · cases ho : e.faces.down with
    | none => rfl
    | some f => rw [ho] at h; simp only [Option.isSome_some, if_true] at h; omega

theorem elementPushes_no_faces {α : Type} [LinearOrderedField α]
    (cosd sind : α → α) (mappings : List (String × Rect)) (errTex : Rect)
    (e : McModelElement α) (h : e.faces_enabled = 0) :
    elementPushes cosd sind mappings errTex e = .ok [] := by
  obtain ⟨hn, he, hs, hw, hu, hd⟩ := faces_enabled_eq_zero h
  unfold elementPushes elementRaw
  rcases hpc : elemCorners e with ⟨p0, p1⟩
  rw [hn, he, hs, hw, hu, hd]
  rfl

theorem modelPushes_no_faces {α : Type} [LinearOrderedField α]
    (cosd sind : α → α) (mappings : List (String × Rect)) (errTex : Rect) :
    ∀ (els : List (McModelElement α)),
      (∀ e ∈ els, e.faces_enabled = 0) →
      modelPushes cosd sind mappings errTex els = .ok [] := by
  intro els
  induction els with
  | nil => intro _; rfl
  | cons e t ih =>
    intro hall
    have he : elementPushes cosd sind mappings errTex e = .ok [] :=
      elementPushes_no_faces cosd sind mappings errTex e (hall e (by simp))
    have ht : modelPushes cosd sind mappings errTex t = .ok [] :=
      ih fun x hx => hall x (by simp [hx])
    simp only [modelPushes, he, ht]
    rfl

/-- C10: a model in which no element has any enabled face converts
successfully to the empty mesh whose index buffer is the absent (`none`)
form — not an empty 8-bit buffer. -/
theorem c10_no_faces_no_indices {α : Type} [LinearOrderedField α] [DecidableEq α]
    (cosd sind : α → α) (mappings : List (String × Rect)) (errTex : Rect)
    (model : McModelJson α) (h : model.face_count = 0) :
    build_mesh cosd sind mappings errTex model = .ok ⟨[], .none, [], []⟩ ∧
      IndicesBuf.none ≠ IndicesBuf.u8 [] := by
  constructor
  · have hall : ∀ e ∈ model.elements, e.faces_enabled = 0 := by
      rw [face_count_eq_sum] at h
      intro e he
      exact List.sum_eq_zero_iff.mp h _ (List.mem_map_of_mem _ he)
    have hmp : modelPushes cosd sind mappings errTex model.elements = .ok [] :=
      modelPushes_no_faces cosd sind mappings errTex model.elements hall
    unfold build_mesh
    rw [hmp]
    rfl
  · intro hcontra
    exact IndicesBuf.noConfusion hcontra

/-- Concrete instantiation of `c10_no_faces_no_indices`: a one-element model
with all six faces disabled. -/
theorem c10_no_faces_no_indices_witness :
    build_mesh (α := ℚ) (fun _ => 1) (fun _ => 0) [] errTex16
        ⟨"block", none, [],
          [⟨⟨0, 0, 0⟩, ⟨1, 1, 1⟩, ⟨none, none, none, none, none, none⟩, none⟩]⟩ =
      .ok ⟨[], .none, [], []⟩ :=
  (c10_no_faces_no_indices (fun _ => 1) (fun _ => 0) [] errTex16
    ⟨"block", none, [],
      [⟨⟨0, 0, 0⟩, ⟨1, 1, 1⟩, ⟨none, none, none, none, none, none⟩, none⟩]⟩
    (by decide)).1

/-- C8 (counterexample): at vertex count 0 — which is at most 255 — the
finalisation selects the absent index form, not the 8-bit form the claim
requires for every count up to 255. -/
theorem c8_index_width_counterexample :
    buildIndices 0 [] = .ok .none ∧ 0 ≤ 255 ∧
      ¬ ∃ l, buildIndices 0 [] = .ok (.u8 l) := by
  refine ⟨rfl, by omega, ?_⟩
  rintro ⟨l, hl⟩
  simp [buildIndices] at hl

/-- C8 (amended): finalisation selects the index width purely from the
deduplicated vertex count — the absent form for count 0, the 8-bit form for
counts 1 through 255, the 16-bit form for 256 through 65535, the 32-bit form
up to `2^32 − 1`, and the fatal `TooManyVertices` error for any larger
count. -/
theorem c8_index_width_amended (n : Nat) (idx : List Nat) :
    (n = 0 → buildIndices n idx = .ok .none) ∧
    (1 ≤ n → n ≤ 255 → buildIndices n idx = .ok (.u8 (idx.map (· % 2 ^ 8)))) ∧
    (256 ≤ n → n ≤ 65535 → buildIndices n idx = .ok (.u16 (idx.map (· % 2 ^ 16)))) ∧
    (65536 ≤ n → n ≤ 4294967295 →
      buildIndices n idx = .ok (.u32 (idx.map (· % 2 ^ 32)))) ∧
    (4294967296 ≤ n → buildIndices n idx = .error .tooManyVertices) := by
  refine ⟨?_, ?_, ?_, ?_, ?_⟩
  · intro h0
    simp [buildIndices, h0]
  · intro h1 h255
    have hne : ¬ n = 0 := by omega
    simp [buildIndices, hne, h255]
  · intro h256 h65535
    have hne : ¬ n = 0 := by omega
    have h255 : ¬ n ≤ 255 := by omega
    simp [buildIndices, hne, h255, h65535]
  · intro h65536 h4g
    have hne : ¬ n = 0 := by omega
    have h255 : ¬ n ≤ 255 := by omega
    have h65535 : ¬ n ≤ 65535 := by omega
    simp [buildIndices, hne, h255, h65535, h4g]
  · intro h4g
    have hne : ¬ n = 0 := by omega
    have h255 : ¬ n ≤ 255 := by omega
    have h65535 : ¬ n ≤ 65535 := by omega
    have h4 : ¬ n ≤ 4294967295 := by omega
    simp [buildIndices, hne, h255, h65535, h4]

/-- Concrete instantiation of `c8_index_width_amended` in all five count
ranges. -/
theorem c8_index_width_amended_witness :
    buildIndices 0 [] = .ok .none ∧
    buildIndices 255 [7] = .ok (.u8 [7]) ∧
    buildIndices 256 [7] = .ok (.u16 [7]) ∧
    buildIndices 65536 [7] = .ok (.u32 [7]) ∧
    buildIndices 4294967296 [7] = .error .tooManyVertices := by
  refine ⟨(c8_index_width_amended 0 []).1 rfl, ?_, ?_, ?_,
    (c8_index_width_amended 4294967296 [7]).2.2.2.2 (by omega)⟩
  · have h := (c8_index_width_amended 255 [7]).2.1 (by omega) (by omega)
    rw [h]
    decide
  · have h := (c8_index_width_amended 256 [7]).2.2.1 (by omega) (by omega)
    rw [h]
    decide
  · have h := (c8_index_width_amended 65536 [7]).2.2.2.1 (by omega) (by omega)
    rw [h]
    decide

/-- C9: whenever mesh building succeeds, the emitted index stream holds
exactly six entries per enabled face — its length is `6 * face_count()` — and
every entry is a valid index into the deduplicated vertex buffer. -/
theorem c9_index_stream {α : Type} [LinearOrderedField α] [DecidableEq α]
    (cosd sind : α → α) (mappings : List (String × Rect)) (errTex : Rect)
    (model : McModelJson α) (m : CpuMesh α)
    (h : build_mesh cosd sind mappings errTex model = .ok m) :
    m.indices.toList.length = 6 * model.face_count ∧
    ∀ i ∈ m.indices.toList, i < m.positions.length := by
  unfold build_mesh at h
  obtain ⟨trace, htrace, h⟩ := except_bind_eq_ok h
  obtain ⟨idx, hidx, h⟩ := except_bind_eq_ok h
  have hm : m = ⟨(push_all ⟨[], []⟩ trace).datas.map (fun d => ⟨d.x, d.y, d.z⟩),
      idx, (push_all ⟨[], []⟩ trace).datas.map (fun d => (d.u, d.v)),
      (push_all ⟨[], []⟩ trace).datas.map (fun d => d.color)⟩ := by
    simpa [pure, Except.pure] using h.symm
  subst hm
  have hlen : (push_all (⟨[], []⟩ : MeshAcc (Vec3S α)) trace).indices.length =
      trace.length := by
    rw [push_all_indices_length]
    simp
  have htl : trace.length = 6 * model.face_count := by
    rw [modelPushes_ok_length htrace, ← face_count_eq_sum]
  have hinv : ∀ i ∈ (push_all (⟨[], []⟩ : MeshAcc (Vec3S α)) trace).indices,
      i < (push_all (⟨[], []⟩ : MeshAcc (Vec3S α)) trace).datas.length :=
    push_all_indices_lt trace ⟨[], []⟩ (by simp)
  unfold buildIndices at hidx
  split_ifs at hidx with h0 h255 h65535 h4g
  · injection hidx with hi
    subst hi
    have hempty : (push_all (⟨[], []⟩ : MeshAcc (Vec3S α)) trace).indices = [] :=
      List.eq_nil_iff_forall_not_mem.mpr fun i hi => by
        have := hinv i hi
        omega
    constructor
    · simp only [IndicesBuf.toList, List.length_nil]
      rw [← htl, ← hlen, hempty]
      rfl
    · intro i hi
      simp [IndicesBuf.toList] at hi
  · injection hidx with hi
    subst hi
    constructor
    · simp only [IndicesBuf.toList, List.length_map]
      rw [hlen, htl]
    · intro i hi
      simp only [IndicesBuf.toList, List.mem_map] at hi
      obtain ⟨j, hj, rfl⟩ := hi
      have hjlt := hinv j hj
      simp only [List.length_map]
      have hmod : j % 2 ^ 8 = j := Nat.mod_eq_of_lt (by omega)
      omega
  · injection hidx with hi
    subst hi
    constructor
    · simp only [IndicesBuf.toList, List.length_map]
      rw [hlen, htl]
    · intro i hi
      simp only [IndicesBuf.toList, List.mem_map] at hi
      obtain ⟨j, hj, rfl⟩ := hi
      have hjlt := hinv j hj
      simp only [List.length_map]
      have hmod : j % 2 ^ 16 = j := Nat.mod_eq_of_lt (by omega)
      omega
  · injection hidx with hi
    subst hi
    constructor
    · simp only [IndicesBuf.toList, List.length_map]
      rw [hlen, htl]
    · intro i hi
      simp only [IndicesBuf.toList, List.mem_map] at hi
      obtain ⟨j, hj, rfl⟩ := hi
      have hjlt := hinv j hj
      simp only [List.length_map]
      have hmod : j % 2 ^ 32 = j := Nat.mod_eq_of_lt (by omega)
      omega

/-- Concrete instantiation of `c9_index_stream`: a unit cube with a single up
face deduplicates to 4 vertices, and its index stream `[0,1,2,2,3,0]` has
6 = 6·1 entries, all below 4. -/
theorem c9_index_stream_witness :
    build_mesh (α := ℚ) (fun _ => 1) (fun _ => 0) [] errTex16
        ⟨"block", none, [],
          [⟨⟨0, 0, 0⟩, ⟨1, 1, 1⟩,
            ⟨none, none, none, none, some ⟨(0, 0, 0, 0), "#t", 0, none⟩, none⟩,
            none⟩]⟩ =
      .ok ⟨[⟨1, 1, 1⟩, ⟨1, 1, 0⟩, ⟨0, 1, 0⟩, ⟨0, 1, 1⟩],
        .u8 [0, 1, 2, 2, 3, 0],
        [(1/32768, -1/32768), (1/32768, 1/32768), (-1/32768, 1/32768),
          (-1/32768, -1/32768)],
        [⟨1, 1, 1, 1⟩, ⟨1, 1, 1, 1⟩, ⟨1, 1, 1, 1⟩, ⟨1, 1, 1, 1⟩]⟩ ∧
    (IndicesBuf.u8 [0, 1, 2, 2, 3, 0]).toList.length =
      6 * McModelJson.face_count (α := ℚ)
        ⟨"block", none, [],
          [⟨⟨0, 0, 0⟩, ⟨1, 1, 1⟩,
            ⟨none, none, none, none, some ⟨(0, 0, 0, 0), "#t", 0, none⟩, none⟩,
            none⟩]⟩ := by
  have h : build_mesh (α := ℚ) (fun _ => 1) (fun _ => 0) [] errTex16
      ⟨"block", none, [],
        [⟨⟨0, 0, 0⟩, ⟨1, 1, 1⟩,
          ⟨none, none, none, none, some ⟨(0, 0, 0, 0), "#t", 0, none⟩, none⟩,
          none⟩]⟩ =
      .ok ⟨[⟨1, 1, 1⟩, ⟨1, 1, 0⟩, ⟨0, 1, 0⟩, ⟨0, 1, 1⟩],
        .u8 [0, 1, 2, 2, 3, 0],
        [(1/32768, -1/32768), (1/32768, 1/32768), (-1/32768, 1/32768),
          (-1/32768, -1/32768)],
        [⟨1, 1, 1, 1⟩, ⟨1, 1, 1, 1⟩, ⟨1, 1, 1, 1⟩, ⟨1, 1, 1, 1⟩]⟩ := by
    norm_num [build_mesh, modelPushes, elementPushes, elementRaw, elemCorners, minmax,
      faceEmit, get_uv, resolveRect, stripHash, rotate_uv, bleedEps, errTex16, faceRaw,
      elemTf, elemMat, setPos, posV, V3.sub, V3.add, push_all, push_pos, idxOfKey,
      buildIndices, McModelDirection.get_shading_srgba, McModelDirection.get_shading_mult,
      Except.map, bind, Except.bind, pure, Except.pure, Vec3S.mk.injEq, Srgba.mk.injEq,
      V3.mk.injEq]
  exact ⟨h, (c9_index_stream (fun _ => 1) (fun _ => 0) [] errTex16 _ _ h).1⟩

/-- Dimensions of a loaded image; pixel data is handled by the external
`image` crate and only the dimensions drive allocation. -/
structure ImgDim where
  width : ℤ
  height : ℤ
deriving DecidableEq, Repr

/-- Path joining, modelling `Path::join` for the relative path arguments used by the atlas build. -/
def pathJoin (base rel : String) : String := base ++ "/" ++ rel

/-- The per-texture loop of the atlas build (source lines 237–251),
parameterised by the external allocator (`etagere::AtlasAllocator::allocate`)
and image loader (`image::open`).  For each `(tex_id, tex_path)` entry in
declared order it computes `base.join(tex_path + ".png")` and attempts the
load; on success it allocates a rectangle of the image's dimensions (fatal
`AtlasExhausted` when allocation fails, aborting the loop) and records
`tex_id ↦ rectangle`; on load failure it warns and records nothing.  The
attempted paths are returned alongside the outcome. -/
def atlasLoop {σ : Type} (allocate : σ → ℤ → ℤ → Option (Rect × σ))
    (load : String → Option ImgDim) (basePath : String) :
    List (String × String) → σ → List (String × Rect) →
    List String × Except ConvError (List (String × Rect) × σ)
  | [], st, mappings => ([], .ok (mappings, st))
  | (texId, texPath) :: rest, st, mappings =>
    let texturePath := pathJoin basePath (texPath ++ ".png")
    match load texturePath with
    | some tile =>
      match allocate st tile.width tile.height with
      | some (mapping, st') =>
        let (attempts, out) :=
          atlasLoop allocate load basePath rest st' (mappings ++ [(texId, mapping)])
        (texturePath :: attempts, out)
      | none => ([texturePath], .error .atlasExhausted)
    | none =>
      let (attempts, out) := atlasLoop allocate load basePath rest st mappings
      (texturePath :: attempts, out)

/-- The texture-building phase of `to_cpu_mesh` (source lines 224–264): the
16×16 fallback rectangle is allocated first (fatal when impossible; its
checkerboard fill and the pixel blits touch only the bitmap, which no claim
concerns), then the per-texture loop runs over the model's declared order. -/
def build_atlas {σ : Type} (allocate : σ → ℤ → ℤ → Option (Rect × σ))
    (load : String → Option ImgDim) (basePath : String)
    (textures : List (String × String)) (st : σ) :
    List String × Except ConvError (List (String × Rect) × Rect × σ) :=
  match allocate st 16 16 with
  | none => ([], .error .atlasExhausted)
  | some (errTex, st') =>
    let (attempts, out) := atlasLoop allocate load basePath textures st' []
    (attempts, out.map (fun ms => (ms.1, errTex, ms.2)))

/-- Whole conversion `to_cpu_mesh` (source lines 223–492): the atlas build over the model's
textures followed by the mesh build against the produced mappings and
fallback rectangle.  The returned bitmap (`CpuTexture`) holds external image
data and is not modelled. -/
def to_cpu_mesh {α σ : Type} [LinearOrderedField α] [DecidableEq α]
    (allocate : σ → ℤ → ℤ → Option (Rect × σ)) (load : String → Option ImgDim)
    (cosd sind : α → α) (basePath : String) (model : McModelJson α) (st : σ) :
    Except ConvError (CpuMesh α) :=
  match (build_atlas allocate load basePath model.textures st).2 with
  | .error e => .error e
  | .ok (mappings, errTex, _) => build_mesh cosd sind mappings errTex model

theorem atlasLoop_ok_attempts {σ : Type} (allocate : σ → ℤ → ℤ → Option (Rect × σ))
    (load : String → Option ImgDim) (basePath : String) :
    ∀ (ts : List (String × String)) (st : σ) (ms : List (String × Rect))
      (res : List (String × Rect) × σ),
      (atlasLoop allocate load basePath ts st ms).2 = .ok res →
      (atlasLoop allocate load basePath ts st ms).1 =
        ts.map (fun t => pathJoin basePath (t.2 ++ ".png")) := by
  intro ts
  induction ts with
  | nil => intro st ms res _; rfl
  | cons t rest ih =>
    intro st ms res h
    obtain ⟨texId, texPath⟩ := t
    cases hl : load (pathJoin basePath (texPath ++ ".png")) with
    | some tile =>
      cases ha : allocate st tile.width tile.height with
      | some pr =>
        obtain ⟨mapping, st'⟩ := pr
        rcases hrec : atlasLoop allocate load basePath rest st'
          (ms ++ [(texId, mapping)]) with ⟨attempts, out⟩
        simp only [atlasLoop, hl, ha, hrec] at h ⊢
        have hih := ih st' (ms ++ [(texId, mapping)]) res (by rw [hrec]; exact h)
        rw [hrec] at hih
        simp only [List.map_cons]
        simp only at hih
        simp [hih]
      | none =>
        simp only [atlasLoop, hl, ha] at h
        exact absurd h (by simp)
    | none =>
      rcases hrec : atlasLoop allocate load basePath rest st ms with ⟨attempts, out⟩
      simp only [atlasLoop, hl, hrec] at h ⊢
      have hih := ih st ms res (by rw [hrec]; exact h)
      rw [hrec] at hih
      simp only [List.map_cons]
      simp only at hih
      simp [hih]

/-- C4 (counterexample): for a textures entry whose id (key) is `"side"` and
whose mapped path value is `"blocks/roller"`, the build attempts
`dir/blocks/roller.png` — the joined value, not the joined id
`dir/side.png`. -/
theorem c4_texture_path_counterexample :
    (build_atlas (σ := Unit) (fun st w h => some (⟨0, 0, w, h⟩, st))
        (fun _ => none) "dir" [("side", "blocks/roller")] ()).1 =
      ["dir/blocks/roller.png"] ∧
    "dir/blocks/roller.png" ≠ pathJoin "dir" ("side" ++ ".png") := by
  exact ⟨rfl, by decide⟩

/-- C4 (amended): whenever the atlas build completes, the files it attempted
to load are exactly, in declared order, the caller-supplied base directory
joined with each texture entry's mapped path value followed by `".png"` —
the mapping's value, not its id; the id is used only as the key recorded for
the allocated rectangle.  (When the build aborts on allocation failure, only
a prefix of the entries has been attempted.) -/
theorem c4_texture_path_amended {σ : Type} (allocate : σ → ℤ → ℤ → Option (Rect × σ))
    (load : String → Option ImgDim) (basePath : String)
    (textures : List (String × String)) (st : σ)
    (result : List (String × Rect) × Rect × σ)
    (h : (build_atlas allocate load basePath textures st).2 = .ok result) :
    (build_atlas allocate load basePath textures st).1 =
      textures.map (fun t => pathJoin basePath (t.2 ++ ".png")) := by
  unfold build_atlas at h ⊢
  cases h16 : allocate st 16 16 with
  | none =>
    rw [h16] at h
    exact absurd h (by simp)
  | some pr =>
    obtain ⟨errTex, st'⟩ := pr
    rw [h16] at h
    dsimp only at h ⊢
    obtain ⟨ms, hms, _⟩ := except_map_eq_ok h
    exact atlasLoop_ok_attempts allocate load basePath textures st' [] ms hms

/-- Concrete instantiation of `c4_texture_path_amended`: two entries whose
values differ from their ids, both loading successfully. -/
theorem c4_texture_path_amended_witness :
    (build_atlas (σ := Unit) (fun st w h => some (⟨0, 0, w, h⟩, st))
        (fun _ => some ⟨16, 16⟩) "dir"
        [("side", "blocks/roller"), ("top", "blocks/lid")] ()).1 =
      ["dir/blocks/roller.png", "dir/blocks/lid.png"] := by
  have h := c4_texture_path_amended (σ := Unit)
    (fun st w h => some (⟨0, 0, w, h⟩, st)) (fun _ => some ⟨16, 16⟩) "dir"
    [("side", "blocks/roller"), ("top", "blocks/lid")] ()
    ([("side", ⟨0, 0, 16, 16⟩), ("top", ⟨0, 0, 16, 16⟩)], ⟨0, 0, 16, 16⟩, ())
    (by rfl)
  rw [h]
  rfl
